import Mathlib

/-!
Shallow embedding of the Run Orchestration & Real-Time Event Bridge of the
`zeus` repository: the score formula, the branch-name formatter, the run
store and submission route of the gateway, the Redis → Socket.io event
bridge, the worker poll loop, and the status-query endpoint.

Pure functions from the source are translated directly; stateful code is
modelled by explicit state passing; best-effort external effects (database
writes, queue enqueue) are passed in as outcome parameters so theorems can
quantify over their success or failure.
-/

namespace Zeus

/-! ## Score formula

Translated from `computeScore` in the acceptance test for the score
formula (mirrors the agent's scorer): `base = 100`; `speed_bonus = 10`
when `totalTimeSecs < 300` else `0`; `efficiency_penalty =
2 * max(0, totalCommits - 20)`; `total = max(0, base + speed_bonus -
efficiency_penalty)`. -/

structure Score where
  base : Int
  speed_bonus : Int
  efficiency_penalty : Int
  total : Int
deriving Repr, DecidableEq

def computeScore (totalTimeSecs : Int) (totalCommits : Int) : Score :=
  let base : Int := 100
  let speed_bonus : Int := if totalTimeSecs < 300 then 10 else 0
  let efficiency_penalty : Int := 2 * max 0 (totalCommits - 20)
  let total : Int := max 0 (base + speed_bonus - efficiency_penalty)
  { base := base
    speed_bonus := speed_bonus
    efficiency_penalty := efficiency_penalty
    total := total }

/-! ## Branch name formatter

Modelled from the spec: `formatBranchName` lives in
`src/backend/gateway/src/branch.ts`, which is not present under `src/`
(only its tests and callers are). Spec §4.2: case-fold to upper, strip
characters outside `[A-Za-z0-9_ ]`, collapse runs of separators, replace
spaces with a single underscore, concatenate `TEAM_LEADER`, append the
fixed suffix `_AI_Fix`; a component that becomes empty after stripping is
invalid (`InvalidInput`). The model is checked below against the concrete
vectors of `acceptance-compliance.test.ts`, which is in `src/`. -/

def isBodyChar (c : Char) : Bool :=
  (decide ('A' ≤ c) && decide (c ≤ 'Z')) || (decide ('0' ≤ c) && decide (c ≤ '9'))

def isSep (c : Char) : Bool :=
  decide (c = ' ') || decide (c = '_')

/-- Join character tokens with a single underscore between them. -/
def joinTokens : List (List Char) → List Char
  | [] => []
  | [t] => t
  | t :: rest => t ++ '_' :: joinTokens rest

/-- Modelled from the spec: normalize one name component — uppercase,
strip characters outside `[A-Z0-9_ ]`, split on separator runs (spaces and
underscores) and rejoin the nonempty tokens with single underscores.
Returns `none` when nothing survives stripping. -/
def normalizeComponent (s : String) : Option String :=
  let kept := (s.toList.map Char.toUpper).filter fun c => isBodyChar c || isSep c
  let tokens := (kept.splitOnP isSep).filter fun t => !t.isEmpty
  if tokens.isEmpty then none
  else some (String.mk (joinTokens tokens))

/-- Modelled from the spec: `formatBranchName team leader` concatenates the
two normalized components as `TEAM_LEADER` and appends `_AI_Fix`; it fails
(`none`, surfaced as `InvalidInput`) when either component normalizes to
empty. -/
def formatBranchName (team leader : String) : Option String :=
  match normalizeComponent team, normalizeComponent leader with
  | some t, some l => some (t ++ "_" ++ l ++ "_AI_Fix")
  | _, _ => none

/-! ## Data model of the submission route

Translated from `src/backend/gateway/src/routes/run-agent.ts` together
with the run-store and validator modules it calls. -/

structure RunAgentRequest where
  repo_url : String
  team_name : String
  leader_name : String
deriving Repr, DecidableEq

/-- The shape registered in the run store and returned on 202 — mirrors
`RunAgentResponse` (`run_id`, `branch_name`, `status`, `socket_room`,
`fingerprint`). -/
structure RunEntry where
  run_id : String
  branch_name : String
  status : String
  socket_room : String
  fingerprint : String
deriving Repr, DecidableEq

/-- Shape of the 409 duplicate-submission body (`run_id`, `status`,
`message`), as projected by `runStore.toDuplicateResponse`. -/
structure DuplicateResponse where
  run_id : String
  status : String
  message : String
deriving Repr, DecidableEq

/-- Modelled from the spec: the Fingerprint Engine
(`src/backend/gateway/src/fingerprint.ts` is not under `src/`) is a pure,
deterministic digest of the normalized `(repo_url, team_name, leader_name)`
triple, used solely as a dedup key. Modelled as a canonical injective
encoding of the triple, which preserves exactly the determinism and
identity-distinguishing contract the spec states. -/
def submissionFingerprint (p : RunAgentRequest) : String :=
  p.repo_url ++ "|" ++ p.team_name ++ "|" ++ p.leader_name

/-! ### Run Store

Modelled from the spec: `src/backend/gateway/src/run-store.ts` is not
under `src/` (only its tests and callers are). Spec §4.3: a single shared
in-memory registry of active runs with lookups by fingerprint and by run
id; `registerQueuedRun` inserts a queued entry; `markRunning` flips the
status; `markComplete` is idempotent and evicts the entry entirely;
`toDuplicateResponse` projects an active entry into the
duplicate-submission shape. Backed by a list of entries. -/

structure RunStore where
  active : List RunEntry
deriving Repr, DecidableEq

def emptyStore : RunStore := ⟨[]⟩

def getActiveByFingerprint (st : RunStore) (fp : String) : Option RunEntry :=
  st.active.find? fun r => r.fingerprint = fp

def getActiveByRunId (st : RunStore) (id : String) : Option RunEntry :=
  st.active.find? fun r => r.run_id = id

def registerQueuedRun (st : RunStore) (r : RunEntry) : RunStore :=
  ⟨st.active ++ [r]⟩

def markRunning (st : RunStore) (id : String) : RunStore :=
  ⟨st.active.map fun r => if r.run_id = id then { r with status := "running" } else r⟩

def markComplete (st : RunStore) (id : String) : RunStore :=
  ⟨st.active.filter fun r => !(r.run_id = id : Bool)⟩

def toDuplicateResponse (r : RunEntry) : DuplicateResponse :=
  { run_id := r.run_id
    status := r.status
    message := "Active run already exists for this submission fingerprint" }

/-! ### Schema validators

Modelled from the spec: `src/backend/gateway/src/validators.ts` is not
under `src/`. The submission response schema requires `status = "queued"`
(the contract test rejects any other status); the duplicate-submission
schema allows exactly `queued` and `running` (the contract test accepts
those and rejects `passed`). Structural fields are guaranteed here by
typing, so the model keeps only the checks that can fail. -/

def validRunAgentResponse (r : RunEntry) : Bool :=
  r.status = "queued"

def validDuplicateResponse (d : DuplicateResponse) : Bool :=
  d.status = "queued" || d.status = "running"

/-! ### The POST /run-agent handler -/

/-- Outcome of a best-effort external call (PostgreSQL insert, BullMQ
enqueue): the gateway wraps each in try/catch and only logs the error. -/
inductive EffectResult
  | ok
  | err
deriving Repr, DecidableEq

inductive SubmitHttp
  | accepted (body : RunEntry)
  | conflict (body : DuplicateResponse)
  | badRequest (code msg : String)
  | contractError (code msg : String)
deriving Repr, DecidableEq

structure SubmitOutcome where
  response : SubmitHttp
  store : RunStore
  logs : List String
deriving Repr, DecidableEq

/-- Translated from the `POST /run-agent` handler in
`src/backend/gateway/src/routes/run-agent.ts`: duplicate check against the
run store by fingerprint (409 with the projected duplicate body), branch
name computation (failure gives 400 `INVALID_INPUT`), fresh `run_id`
(passed in for the `randomUUID` draw), response-schema self-check,
best-effort PostgreSQL insert, in-memory registration, best-effort
enqueue, 202 with the response body. Failures of the two best-effort
calls are only appended to `logs`. -/
def postRunAgent (st : RunStore) (p : RunAgentRequest) (freshId : String)
    (dbWrite enq : EffectResult) : SubmitOutcome :=
  let fp := submissionFingerprint p
  match getActiveByFingerprint st fp with
  | some existing =>
    let dup := toDuplicateResponse existing
    if validDuplicateResponse dup then
      { response := .conflict dup, store := st, logs := [] }
    else
      { response := .contractError "INTERNAL_CONTRACT_ERROR"
          "Generated duplicate response violates contract"
        store := st, logs := [] }
  | none =>
    match formatBranchName p.team_name p.leader_name with
    | none =>
      { response := .badRequest "INVALID_INPUT" "Unable to compute valid branch name"
        store := st, logs := [] }
    | some branch =>
      let resp : RunEntry :=
        { run_id := freshId
          branch_name := branch
          status := "queued"
          socket_room := "/run/" ++ freshId
          fingerprint := fp }
      if validRunAgentResponse resp then
        let dbLogs := match dbWrite with
          | .ok => []
          | .err => ["Failed to persist run to PostgreSQL"]
        let enqLogs := match enq with
          | .ok => []
          | .err => ["Failed to enqueue agent run"]
        { response := .accepted resp
          store := registerQueuedRun st resp
          logs := dbLogs ++ enqLogs }
      else
        { response := .contractError "INTERNAL_CONTRACT_ERROR"
            "Generated response violates contract"
          store := st, logs := [] }

/-! ## Redis → Socket.io bridge

Translated from `RedisBridge` in `src/backend/gateway/src/redis.ts`
(`handleEventMessage`, `handleStatusMessage`, `extractEventType`). An
inbound wire message is either unparseable JSON (`JSON.parse` throws — the
handler's try/catch swallows it) or an object whose `run_id` and `status`
fields may be absent; a present-but-empty string is falsy in the
JavaScript guards `if (!runId)` / `if (!data.run_id || !data.status)` and
is modelled the same way. -/

inductive BridgeMsg
  | malformed
  | obj (run_id : Option String) (status : Option String)
deriving Repr, DecidableEq

inductive EventKind
  | thought
  | fixApplied
  | ciUpdate
  | telemetryTick
  | runComplete
deriving Repr, DecidableEq

/-- The last `:`-separated segment of a channel name (`split(":").pop()`;
splitting never yields an empty list, so the JS `?? ""` default is
unreachable). -/
def lastSegment (channel : String) : List Char :=
  ((channel.toList.splitOn ':').getLast?).getD []

/-- Translated from `extractEventType`: take the last `:`-segment of the
channel name and accept exactly the five known event types. -/
def extractEventType (channel : String) : Option EventKind :=
  let last := lastSegment channel
  if last = "thought_event".toList then some .thought
  else if last = "fix_applied".toList then some .fixApplied
  else if last = "ci_update".toList then some .ciUpdate
  else if last = "telemetry_tick".toList then some .telemetryTick
  else if last = "run_complete".toList then some .runComplete
  else none

/-- One call made on the `ContractSafeBroadcaster`: which emit method, the
target Socket.io room, and the payload that was forwarded. -/
structure BCall where
  kind : EventKind
  room : String
  payload : BridgeMsg
deriving Repr, DecidableEq

inductive StoreOp
  | markRunningOp (id : String)
  | markCompleteOp (id : String)
deriving Repr, DecidableEq

def applyStoreOp (st : RunStore) : StoreOp → RunStore
  | .markRunningOp id => markRunning st id
  | .markCompleteOp id => markComplete st id

/-- Translated from `RedisBridge.handleEventMessage`. `emits` says, for
each broadcaster call, whether that call throws (the contract-safe
broadcaster itself logs and drops instead of throwing, but the bridge is
written to survive an arbitrary throw; a throw is caught by the handler's
try/catch, so the lines after the emit — `runStore.markComplete` for
`run_complete` — are skipped). Returns the broadcaster calls made and the
run-store operations performed, in order. -/
inductive EmitBehavior
  | returns
  | throws
deriving Repr, DecidableEq

def handleEventMessage (emits : BCall → EmitBehavior) (channel : String)
    (raw : BridgeMsg) : List BCall × List StoreOp :=
  match extractEventType channel with
  | none => ([], [])
  | some kind =>
    match raw with
    | .malformed => ([], [])
    | .obj rid status? =>
      match rid with
      | none => ([], [])
      | some r =>
        if r = "" then ([], [])
        else
          let call : BCall := ⟨kind, "/run/" ++ r, .obj (some r) status?⟩
          match emits call with
          | .throws => ([call], [])
          | .returns =>
            ([call], if kind = .runComplete then [.markCompleteOp r] else [])

/-- Translated from `RedisBridge.handleStatusMessage`: parse, require
truthy `run_id` and `status`, mark running on `"running"`, mark complete
on any of the terminal values, do nothing otherwise; the broadcaster is
never touched. -/
def handleStatusMessage (raw : BridgeMsg) : List BCall × List StoreOp :=
  match raw with
  | .malformed => ([], [])
  | .obj rid status? =>
    match rid, status? with
    | some r, some s =>
      if r = "" || s = "" then ([], [])
      else if s = "running" then ([], [.markRunningOp r])
      else if s = "passed" || s = "failed" || s = "quarantined" then
        ([], [.markCompleteOp r])
      else ([], [])
    | _, _ => ([], [])

/-- One inbound pub/sub delivery: either a `pmessage` on a
`run:event:*` channel or a `message` on `run:status`. -/
inductive InboundMsg
  | eventMsg (channel : String) (raw : BridgeMsg)
  | statusMsg (raw : BridgeMsg)
deriving Repr, DecidableEq

def handleInbound (emits : BCall → EmitBehavior) : InboundMsg → List BCall × List StoreOp
  | .eventMsg channel raw => handleEventMessage emits channel raw
  | .statusMsg raw => handleStatusMessage raw

/-- Sequential processing of a stream of inbound messages: each message is
handled by its own fault-isolated handler invocation, and the calls and
store operations accumulate in order. -/
def processInbound (emits : BCall → EmitBehavior) : List InboundMsg → List BCall × List StoreOp
  | [] => ([], [])
  | m :: rest =>
    let h := handleInbound emits m
    let r := processInbound emits rest
    (h.1 ++ r.1, h.2 ++ r.2)

/-! ## Worker loop

Translated from `processAgentRun` and `bridgeSSE` in the worker source
(`src/unnamed/part_012`). Remote interactions are passed in as outcome
parameters: the result of the `/agent/start` call and the sequence of
`/agent/status` poll outcomes (the list has one entry per available
attempt, so its length is the `maxPollAttempts` budget). -/

structure PollOk where
  status : String
  current_node : String
  iteration : Nat
deriving Repr, DecidableEq

inductive PollOutcome
  | httpError
  | netError
  | ok (d : PollOk)
deriving Repr, DecidableEq

/-- One message published on the `run:status` channel. -/
structure StatusPub where
  run_id : String
  status : String
  current_node : String
  iteration : Nat
deriving Repr, DecidableEq

def isTerminalStatus (s : String) : Bool :=
  s = "passed" || s = "failed" || s = "quarantined"

structure PollLoopResult where
  published : List StatusPub
  terminal : Bool
  attemptsUsed : Nat
deriving Repr, DecidableEq

/-- Translated from the worker's poll loop (`while attempts <
maxPollAttempts && !terminal`): each attempt sleeps then polls; a non-2xx
response (`continue`) or a thrown fetch/publish error (caught and warned)
publishes nothing; a 2xx response publishes the reported status and sets
the terminal flag when that status is terminal. -/
def pollLoop (runId : String) : List PollOutcome → PollLoopResult
  | [] => ⟨[], false, 0⟩
  | o :: rest =>
    match o with
    | .httpError =>
      let r := pollLoop runId rest
      ⟨r.published, r.terminal, r.attemptsUsed + 1⟩
    | .netError =>
      let r := pollLoop runId rest
      ⟨r.published, r.terminal, r.attemptsUsed + 1⟩
    | .ok d =>
      let pub : StatusPub := ⟨runId, d.status, d.current_node, d.iteration⟩
      if isTerminalStatus d.status then ⟨[pub], true, 1⟩
      else
        let r := pollLoop runId rest
        ⟨pub :: r.published, r.terminal, r.attemptsUsed + 1⟩

inductive StartOutcome
  | httpErrorStart
  | rejected
  | accepted
deriving Repr, DecidableEq

structure WorkerRunResult where
  published : List StatusPub
  sseStarted : Bool
  sseCancelled : Bool
  threw : Bool
deriving Repr, DecidableEq

/-- Translated from `processAgentRun`: publish `running` /
`repo_scanner` first; call `/agent/start` (a non-2xx response or
`accepted:false` throws, failing the job attempt); on acceptance start the
SSE bridge, run the poll loop, then always abort the SSE read and swallow
its promise; when the loop exhausted its budget without a terminal status,
publish the forced `failed` / `timeout` status. -/
def processAgentRun (runId : String) (start : StartOutcome)
    (outcomes : List PollOutcome) : WorkerRunResult :=
  let initial : StatusPub := ⟨runId, "running", "repo_scanner", 0⟩
  match start with
  | .httpErrorStart => ⟨[initial], false, false, true⟩
  | .rejected => ⟨[initial], false, false, true⟩
  | .accepted =>
    let r := pollLoop runId outcomes
    let tail := if r.terminal then [] else [⟨runId, "failed", "timeout", 0⟩]
    ⟨initial :: (r.published ++ tail), true, true, false⟩

/-- How the SSE stream read ended inside `bridgeSSE`. -/
inductive SseEnd
  | streamDone
  | readError
deriving Repr, DecidableEq

/-- Translated from the catch block of `bridgeSSE`: a read error with the
abort signal set returns cleanly (`if (signal.aborted) return`); only a
read error without the signal logs a warning. Nothing is ever rethrown
(the worker additionally swallows the promise with `.catch(() => {})`). -/
def bridgeSSEWarns (ending : SseEnd) (aborted : Bool) : Bool :=
  match ending with
  | .streamDone => false
  | .readError => !aborted

/-- The status updates the loop publishes for a given sequence of poll
outcomes: one per successful (2xx) poll, none for failed ones. -/
def pubsOf (runId : String) (l : List PollOutcome) : List StatusPub :=
  l.filterMap fun o =>
    match o with
    | .ok d => some ⟨runId, d.status, d.current_node, d.iteration⟩
    | _ => none

/-! ## GET /agent/status/:runId

Translated from `src/backend/gateway/src/routes/run-query.ts`. The
artifact read and the PostgreSQL lookup are external, so their outcomes
are passed in as parameters; the run-store lookup uses the embedded
store. -/

/-- Modelled from the spec: `assertRunId` lives in the artifact module,
which is not under `src/`; spec §4.9 requires a narrow
safe-character/length pattern before any filesystem access. Modelled as:
nonempty, at most 64 characters, every character alphanumeric, underscore
or hyphen. -/
def validRunId (s : String) : Bool :=
  !s.toList.isEmpty && decide (s.toList.length ≤ 64) &&
    s.toList.all fun c => c.isAlpha || c.isDigit || c = '_' || c = '-'

/-- Result of `readResultsArtifact`: a schema-valid parsed artifact
(final status and `ci_log` length are the fields this endpoint projects),
or any failure (missing file, parse error, contract violation — the
endpoint catches them all and falls through). -/
inductive ArtifactRead
  | readOk (final_status : String) (ci_log_len : Nat)
  | readFail
deriving Repr, DecidableEq

/-- A row of the `runs` table as selected by the fallback query. -/
structure DbRow where
  run_id : String
  status : String
  total_iterations : Option Nat
deriving Repr, DecidableEq

/-- Result of the PostgreSQL fallback lookup: rows (at most one, by
`LIMIT 1`) or a query error (caught; falls through to 404). -/
inductive DbLookup
  | dbRows (row : Option DbRow)
  | dbError
deriving Repr, DecidableEq

structure StatusBody where
  run_id : String
  status : String
  current_node : String
  iteration : Nat
  max_iterations : Nat
  progress_pct : Nat
deriving Repr, DecidableEq

inductive StatusHttp
  | ok (body : StatusBody)
  | invalidInput
  | notFound
deriving Repr, DecidableEq

/-- Lowercasing used for `results.final_status.toLowerCase()`. -/
def lowerString (s : String) : String :=
  String.mk (s.toList.map Char.toLower)

/-- Translated from the `GET /agent/status/:runId` handler: reject bad
run ids with 400; serve an active store entry as queued-shape progress;
otherwise project a readable results artifact (status lowercased,
`current_node = "complete"`, `progress_pct = 100`); otherwise fall back to
the `runs` table — a row maps terminal statuses to `complete` / 100 and
anything else to `running` / 50; 404 only when everything missed. -/
def getAgentStatus (maxIterations : Nat) (runId : String) (st : RunStore)
    (artifact : ArtifactRead) (db : DbLookup) : StatusHttp :=
  if !validRunId runId then .invalidInput
  else
    match getActiveByRunId st runId with
    | some active =>
      .ok { run_id := active.run_id
            status := active.status
            current_node := "queued"
            iteration := 0
            max_iterations := maxIterations
            progress_pct := 0 }
    | none =>
      match artifact with
      | .readOk fs len =>
        .ok { run_id := runId
              status := lowerString fs
              current_node := "complete"
              iteration := len
              max_iterations := maxIterations
              progress_pct := 100 }
      | .readFail =>
        match db with
        | .dbRows (some row) =>
          let isTerminal : Bool :=
            row.status = "passed" || row.status = "failed" || row.status = "quarantined"
          .ok { run_id := row.run_id
                status := row.status
                current_node := if isTerminal then "complete" else "running"
                iteration := row.total_iterations.getD 0
                max_iterations := maxIterations
                progress_pct := if isTerminal then 100 else 50 }
        | .dbRows none => .notFound
        | .dbError => .notFound

/-! ## Shared helper lemmas -/

theorem find?_append_of_none {α : Type} (p : α → Bool) (l₁ l₂ : List α)
    (h : l₁.find? p = none) : (l₁ ++ l₂).find? p = l₂.find? p := by
  induction l₁ with
  | nil => simp
  | cons a t ih =>
    cases hpa : p a with
    | true => simp [List.find?, hpa] at h
    | false =>
      simp only [List.find?, hpa] at h
      simpa [List.find?, hpa] using ih h

theorem find?_filter_of_none {α : Type} (p q : α → Bool) (l : List α)
    (h : l.find? p = none) : (l.filter q).find? p = none := by
  rw [List.find?_eq_none] at h ⊢
  intro a ha
  exact h a (List.mem_of_mem_filter ha)

theorem getActiveByFingerprint_register_self (st : RunStore) (r : RunEntry)
    (h : getActiveByFingerprint st r.fingerprint = none) :
    getActiveByFingerprint (registerQueuedRun st r) r.fingerprint = some r := by
  unfold getActiveByFingerprint registerQueuedRun at *
  rw [find?_append_of_none _ _ _ h]
  simp [List.find?]

theorem getActiveByFingerprint_after_evict (st : RunStore) (r : RunEntry)
    (h : getActiveByFingerprint st r.fingerprint = none) :
    getActiveByFingerprint (markComplete (registerQueuedRun st r) r.run_id)
      r.fingerprint = none := by
  unfold getActiveByFingerprint registerQueuedRun markComplete at *
  simp only [List.filter_append]
  rw [find?_append_of_none]
  · simp [List.filter]
  · exact find?_filter_of_none _ _ _ h

theorem getActiveByRunId_markComplete_self (st : RunStore) (id : String) :
    getActiveByRunId (markComplete st id) id = none := by
  unfold getActiveByRunId markComplete
  rw [List.find?_eq_none]
  intro a ha
  have := (List.mem_filter.mp ha).2
  simpa using this

/-! ## Claim theorems -/

/-- C2: for every `total_time_secs` `t` and commit count `c`, the score
computation returns `base = 100`, `speed_bonus = 10` iff `t < 300` else
`0`, `efficiency_penalty = 2 * max 0 (c - 20)`, and
`total = max 0 (base + speed_bonus - efficiency_penalty)`; with the five
quoted examples `(200,5) → 110`, `(299,0) → 110`, `(300,0) → 100`,
`(400,30) → 80`, `(600,100) → 0`. -/
theorem computeScore_formula_and_examples :
    (∀ t c : Int,
      (computeScore t c).base = 100 ∧
      (computeScore t c).speed_bonus = (if t < 300 then 10 else 0) ∧
      (computeScore t c).efficiency_penalty = 2 * max 0 (c - 20) ∧
      (computeScore t c).total =
        max 0 (100 + (if t < 300 then 10 else 0) - 2 * max 0 (c - 20))) ∧
    computeScore 200 5 = ⟨100, 10, 0, 110⟩ ∧
    computeScore 299 0 = ⟨100, 10, 0, 110⟩ ∧
    computeScore 300 0 = ⟨100, 0, 0, 100⟩ ∧
    computeScore 400 30 = ⟨100, 0, 20, 80⟩ ∧
    computeScore 600 100 = ⟨100, 0, 160, 0⟩ := by
  refine ⟨fun t c => ⟨rfl, rfl, rfl, rfl⟩, ?_, ?_, ?_, ?_, ?_⟩ <;> decide

/-- C3: the branch-name formatter upcases, strips characters outside
`[A-Za-z0-9_ ]`, collapses separator runs to single underscores, joins the
components as `TEAM_LEADER` and appends `_AI_Fix`
(checked on the repository's own acceptance-test vectors, including
`("RIFT ORGANISERS", "Saiyam Kumar") ↦ "RIFT_ORGANISERS_SAIYAM_KUMAR_AI_Fix"`);
it fails exactly when either normalized component is empty, and a failing
format surfaces as HTTP 400 `INVALID_INPUT` on submission. -/
theorem formatBranchName_spec :
    formatBranchName "RIFT ORGANISERS" "Saiyam Kumar" =
      some "RIFT_ORGANISERS_SAIYAM_KUMAR_AI_Fix" ∧
    formatBranchName "team alpha" "jane doe" = some "TEAM_ALPHA_JANE_DOE_AI_Fix" ∧
    formatBranchName "Code Warriors" "John Smith" = some "CODE_WARRIORS_JOHN_SMITH_AI_Fix" ∧
    formatBranchName "RIFT@2026!" "Leader#1" = some "RIFT2026_LEADER1_AI_Fix" ∧
    formatBranchName "Team   Name" "Lead   Name" = some "TEAM_NAME_LEAD_NAME_AI_Fix" ∧
    formatBranchName "***" "$$$" = none ∧
    formatBranchName "" "" = none ∧
    (∀ t l, formatBranchName t l = none ↔
      (normalizeComponent t = none ∨ normalizeComponent l = none)) ∧
    (∀ st p freshId dbW enq,
      formatBranchName p.team_name p.leader_name = none →
      getActiveByFingerprint st (submissionFingerprint p) = none →
      (postRunAgent st p freshId dbW enq).response =
        .badRequest "INVALID_INPUT" "Unable to compute valid branch name") := by
  refine ⟨by decide, by decide, by decide, by decide, by decide, by decide, by decide, ?_, ?_⟩
  · intro t l
    unfold formatBranchName
    cases normalizeComponent t <;> cases normalizeComponent l <;> simp
  · intro st p freshId dbW enq hbr hfp
    simp [postRunAgent, hfp, hbr]

/-- Closed instance of `formatBranchName_spec`: an all-punctuation team
name yields HTTP 400 on submission. -/
theorem formatBranchName_spec_witness :
    (postRunAgent emptyStore
        ⟨"https://github.com/org/repo", "***", "$$$"⟩ "run_w1" .ok .ok).response =
      .badRequest "INVALID_INPUT" "Unable to compute valid branch name" :=
  formatBranchName_spec.2.2.2.2.2.2.2.2 emptyStore
    ⟨"https://github.com/org/repo", "***", "$$$"⟩ "run_w1" .ok .ok
    (by decide) (by decide)

/-- C1: with no active run for the submission's fingerprint, the first
submission returns 202 with a queued entry carrying the fresh `run_id`;
an identical second submission while that run is active returns 409 whose
body carries the **same** `run_id` (and leaves the store untouched); after
`markComplete` evicts the run, an identical third submission returns 202
with a new `run_id` (fresh ids are distinct, as drawn from `randomUUID`). -/
theorem submit_twice_conflict_then_new_after_complete
    (st : RunStore) (p : RunAgentRequest) (b id1 id2 id3 : String)
    (db1 e1 db2 e2 db3 e3 : EffectResult)
    (hfp : getActiveByFingerprint st (submissionFingerprint p) = none)
    (hbr : formatBranchName p.team_name p.leader_name = some b)
    (hfresh : id3 ≠ id1) :
    (postRunAgent st p id1 db1 e1).response =
      .accepted ⟨id1, b, "queued", "/run/" ++ id1, submissionFingerprint p⟩ ∧
    (postRunAgent (postRunAgent st p id1 db1 e1).store p id2 db2 e2).response =
      .conflict ⟨id1, "queued",
        "Active run already exists for this submission fingerprint"⟩ ∧
    (postRunAgent (postRunAgent st p id1 db1 e1).store p id2 db2 e2).store =
      (postRunAgent st p id1 db1 e1).store ∧
    (postRunAgent (markComplete (postRunAgent st p id1 db1 e1).store id1)
        p id3 db3 e3).response =
      .accepted ⟨id3, b, "queued", "/run/" ++ id3, submissionFingerprint p⟩ ∧
    id3 ≠ id1 := by
  have hstore : (postRunAgent st p id1 db1 e1).store =
      registerQueuedRun st ⟨id1, b, "queued", "/run/" ++ id1, submissionFingerprint p⟩ := by
    simp [postRunAgent, hfp, hbr, validRunAgentResponse]
  have hfind2 : getActiveByFingerprint
      (registerQueuedRun st ⟨id1, b, "queued", "/run/" ++ id1, submissionFingerprint p⟩)
      (submissionFingerprint p) =
      some ⟨id1, b, "queued", "/run/" ++ id1, submissionFingerprint p⟩ :=
    getActiveByFingerprint_register_self st _ hfp
  have hfind3 : getActiveByFingerprint
      (markComplete
        (registerQueuedRun st ⟨id1, b, "queued", "/run/" ++ id1, submissionFingerprint p⟩)
        id1)
      (submissionFingerprint p) = none :=
    getActiveByFingerprint_after_evict st _ hfp
  refine ⟨?_, ?_, ?_, ?_, hfresh⟩
  · simp [postRunAgent, hfp, hbr, validRunAgentResponse]
  · rw [hstore]
    simp [postRunAgent, hfind2, toDuplicateResponse, validDuplicateResponse]
  · rw [hstore]
    simp [postRunAgent, hfind2, toDuplicateResponse, validDuplicateResponse]
  · rw [hstore]
    simp [postRunAgent, hfind3, hbr, validRunAgentResponse]

/-- Closed instance of `submit_twice_conflict_then_new_after_complete` on
the canonical submission, starting from the empty store. -/
theorem submit_twice_conflict_then_new_after_complete_witness :
    (postRunAgent emptyStore
        ⟨"https://github.com/org/repo", "RIFT ORGANISERS", "Saiyam Kumar"⟩
        "run_a" .ok .ok).response =
      .accepted ⟨"run_a", "RIFT_ORGANISERS_SAIYAM_KUMAR_AI_Fix", "queued", "/run/" ++ "run_a",
        submissionFingerprint
          ⟨"https://github.com/org/repo", "RIFT ORGANISERS", "Saiyam Kumar"⟩⟩ ∧
    (postRunAgent (postRunAgent emptyStore
        ⟨"https://github.com/org/repo", "RIFT ORGANISERS", "Saiyam Kumar"⟩
        "run_a" .ok .ok).store
        ⟨"https://github.com/org/repo", "RIFT ORGANISERS", "Saiyam Kumar"⟩
        "run_a2" .ok .ok).response =
      .conflict ⟨"run_a", "queued",
        "Active run already exists for this submission fingerprint"⟩ ∧
    (postRunAgent (postRunAgent emptyStore
        ⟨"https://github.com/org/repo", "RIFT ORGANISERS", "Saiyam Kumar"⟩
        "run_a" .ok .ok).store
        ⟨"https://github.com/org/repo", "RIFT ORGANISERS", "Saiyam Kumar"⟩
        "run_a2" .ok .ok).store =
      (postRunAgent emptyStore
        ⟨"https://github.com/org/repo", "RIFT ORGANISERS", "Saiyam Kumar"⟩
        "run_a" .ok .ok).store ∧
    (postRunAgent (markComplete (postRunAgent emptyStore
        ⟨"https://github.com/org/repo", "RIFT ORGANISERS", "Saiyam Kumar"⟩
        "run_a" .ok .ok).store "run_a")
        ⟨"https://github.com/org/repo", "RIFT ORGANISERS", "Saiyam Kumar"⟩
        "run_b" .ok .ok).response =
      .accepted ⟨"run_b", "RIFT_ORGANISERS_SAIYAM_KUMAR_AI_Fix", "queued", "/run/" ++ "run_b",
        submissionFingerprint
          ⟨"https://github.com/org/repo", "RIFT ORGANISERS", "Saiyam Kumar"⟩⟩ ∧
    "run_b" ≠ "run_a" :=
  submit_twice_conflict_then_new_after_complete emptyStore
    ⟨"https://github.com/org/repo", "RIFT ORGANISERS", "Saiyam Kumar"⟩
    "RIFT_ORGANISERS_SAIYAM_KUMAR_AI_Fix" "run_a" "run_a2" "run_b"
    .ok .ok .ok .ok .ok .ok (by decide) (by decide) (by decide)

/-- C4: a well-formed `run_complete` event (with a non-throwing
broadcaster emit, as the contract-safe broadcaster guarantees) makes
exactly one `run_complete` broadcaster call to that run's room and
performs exactly the `markComplete` store operation, which evicts the run
from the active registry; and status-channel messages never touch the
broadcaster, marking the run complete on any terminal value and running
on `"running"`. -/
theorem run_complete_emits_once_and_evicts
    (emits : BCall → EmitBehavior) (r : String) (status? : Option String) (st : RunStore)
    (hr : r ≠ "")
    (hnothrow : emits ⟨.runComplete, "/run/" ++ r, .obj (some r) status?⟩ = .returns) :
    handleEventMessage emits "run:event:run_complete" (.obj (some r) status?) =
      ([⟨.runComplete, "/run/" ++ r, .obj (some r) status?⟩], [.markCompleteOp r]) ∧
    getActiveByRunId (applyStoreOp st (.markCompleteOp r)) r = none ∧
    (∀ raw, (handleStatusMessage raw).1 = []) ∧
    (∀ id s, id ≠ "" → s = "passed" ∨ s = "failed" ∨ s = "quarantined" →
      handleStatusMessage (.obj (some id) (some s)) = ([], [.markCompleteOp id])) ∧
    (∀ id, id ≠ "" → handleStatusMessage (.obj (some id) (some "running")) =
      ([], [.markRunningOp id])) := by
  have hkind : extractEventType "run:event:run_complete" = some .runComplete := by decide
  refine ⟨?_, ?_, ?_, ?_, ?_⟩
  · simp [handleEventMessage, hkind, hr, hnothrow]
  · exact getActiveByRunId_markComplete_self st r
  · intro raw
    cases raw with
    | malformed => rfl
    | obj rid status? =>
      cases rid with
      | none => rfl
      | some id =>
        cases status? with
        | none => rfl
        | some s =>
          simp only [handleStatusMessage]
          split_ifs <;> rfl
  · intro id s hid hs
    have hsne : s ≠ "" := by rcases hs with h | h | h <;> subst h <;> decide
    have hsnr : s ≠ "running" := by rcases hs with h | h | h <;> subst h <;> decide
    have hterm :
        (decide (s = "passed") || decide (s = "failed") || decide (s = "quarantined")) = true := by
      rcases hs with h | h | h <;> subst h <;> decide
    simp [handleStatusMessage, hid, hsne, hsnr, hterm]
  · intro id hid
    simp [handleStatusMessage, hid]

/-- Closed instance of `run_complete_emits_once_and_evicts` at
`run_id = "run_abc123"` with a never-throwing broadcaster. -/
theorem run_complete_emits_once_and_evicts_witness :
    handleEventMessage (fun _ => .returns) "run:event:run_complete"
        (.obj (some "run_abc123") (some "passed")) =
      ([⟨.runComplete, "/run/" ++ "run_abc123", .obj (some "run_abc123") (some "passed")⟩],
       [.markCompleteOp "run_abc123"]) ∧
    getActiveByRunId
      (applyStoreOp ⟨[⟨"run_abc123", "T_L_AI_Fix", "running", "/run/run_abc123", "f"⟩]⟩
        (.markCompleteOp "run_abc123")) "run_abc123" = none ∧
    (∀ raw, (handleStatusMessage raw).1 = []) ∧
    (∀ id s, id ≠ "" → s = "passed" ∨ s = "failed" ∨ s = "quarantined" →
      handleStatusMessage (.obj (some id) (some s)) = ([], [.markCompleteOp id])) ∧
    (∀ id, id ≠ "" → handleStatusMessage (.obj (some id) (some "running")) =
      ([], [.markRunningOp id])) :=
  run_complete_emits_once_and_evicts (fun _ => .returns) "run_abc123" (some "passed")
    ⟨[⟨"run_abc123", "T_L_AI_Fix", "running", "/run/run_abc123", "f"⟩]⟩
    (by decide) rfl

/-- C5: a well-formed payload carrying `run_id = r` on the
`run:event:fix_applied` channel causes exactly one broadcaster call — a
`fix_applied` emission to room `/run/r` forwarding that payload — and no
store operation, whatever the broadcaster's emit behavior. -/
theorem fix_applied_routes_exactly_once
    (emits : BCall → EmitBehavior) (r : String) (status? : Option String)
    (hr : r ≠ "") :
    handleEventMessage emits "run:event:fix_applied" (.obj (some r) status?) =
      ([⟨.fixApplied, "/run/" ++ r, .obj (some r) status?⟩], []) := by
  have hkind : extractEventType "run:event:fix_applied" = some .fixApplied := by decide
  cases hem : emits ⟨.fixApplied, "/run/" ++ r, .obj (some r) status?⟩ <;>
    simp [handleEventMessage, hkind, hr, hem]

/-- Closed instance of `fix_applied_routes_exactly_once` at
`run_id = "run_abc123"`. -/
theorem fix_applied_routes_exactly_once_witness :
    handleEventMessage (fun _ => .returns) "run:event:fix_applied"
        (.obj (some "run_abc123") none) =
      ([⟨.fixApplied, "/run/" ++ "run_abc123", .obj (some "run_abc123") none⟩], []) :=
  fix_applied_routes_exactly_once (fun _ => .returns) "run_abc123" none (by decide)

/-- C6: malformed JSON, a payload without a (truthy) `run_id`, or an
unrecognized event type produce zero broadcaster calls and zero store
operations on both channels; and message handling is fault-isolated —
processing a stream is the concatenation of each message's independent
handler output (for any emit behavior, including throwing), so a bad or
throwing message leaves the handling of the rest of the stream
unchanged. -/
theorem bridge_discards_bad_input_and_isolates_faults :
    (∀ emits channel, handleEventMessage emits channel .malformed = ([], [])) ∧
    (∀ emits channel status?,
      handleEventMessage emits channel (.obj none status?) = ([], [])) ∧
    (∀ emits channel raw, extractEventType channel = none →
      handleEventMessage emits channel raw = ([], [])) ∧
    handleStatusMessage .malformed = ([], []) ∧
    (∀ status?, handleStatusMessage (.obj none status?) = ([], [])) ∧
    (∀ emits m rest, processInbound emits (m :: rest) =
      ((handleInbound emits m).1 ++ (processInbound emits rest).1,
       (handleInbound emits m).2 ++ (processInbound emits rest).2)) ∧
    (∀ emits channel rest,
      processInbound emits (.eventMsg channel .malformed :: rest) =
        processInbound emits rest) := by
  refine ⟨?_, ?_, ?_, rfl, ?_, ?_, ?_⟩
  · intro emits channel
    unfold handleEventMessage
    cases extractEventType channel <;> rfl
  · intro emits channel status?
    unfold handleEventMessage
    cases extractEventType channel <;> rfl
  · intro emits channel raw hch
    unfold handleEventMessage
    rw [hch]
  · intro status?
    rfl
  · intro emits m rest
    rfl
  · intro emits channel rest
    have h : handleEventMessage emits channel .malformed = ([], []) := by
      unfold handleEventMessage
      cases extractEventType channel <;> rfl
    simp [processInbound, handleInbound, h]

/-- Closed instance of `bridge_discards_bad_input_and_isolates_faults`:
an unknown event type yields no calls. -/
theorem bridge_discards_bad_input_witness :
    handleEventMessage (fun _ => .returns) "run:event:unknown_thing"
      (.obj (some "run_x") none) = ([], []) :=
  bridge_discards_bad_input_and_isolates_faults.2.2.1 (fun _ => .returns)
    "run:event:unknown_thing" (.obj (some "run_x") none) (by decide)

/-! Poll-loop helper lemmas. -/

theorem pollLoop_published_eq (runId : String) (outcomes : List PollOutcome) :
    (pollLoop runId outcomes).published =
      pubsOf runId (outcomes.take (pollLoop runId outcomes).attemptsUsed) := by
  induction outcomes with
  | nil => rfl
  | cons o rest ih =>
    cases o with
    | httpError => simpa [pollLoop, pubsOf] using ih
    | netError => simpa [pollLoop, pubsOf] using ih
    | ok d =>
      by_cases h : isTerminalStatus d.status = true
      · simp [pollLoop, h, pubsOf]
      · simp only [Bool.not_eq_true] at h
        simpa [pollLoop, h, pubsOf] using ih

theorem pollLoop_attempts_le (runId : String) (outcomes : List PollOutcome) :
    (pollLoop runId outcomes).attemptsUsed ≤ outcomes.length := by
  induction outcomes with
  | nil => simp [pollLoop]
  | cons o rest ih =>
    cases o with
    | httpError =>
      simp only [pollLoop, List.length_cons]
      exact Nat.succ_le_succ ih
    | netError =>
      simp only [pollLoop, List.length_cons]
      exact Nat.succ_le_succ ih
    | ok d =>
      by_cases h : isTerminalStatus d.status = true
      · simp [pollLoop, h]
      · simp only [Bool.not_eq_true] at h
        simp only [pollLoop, h, List.length_cons]
        exact Nat.succ_le_succ ih

theorem pollLoop_exhausts (runId : String) (outcomes : List PollOutcome)
    (h : (pollLoop runId outcomes).terminal = false) :
    (pollLoop runId outcomes).attemptsUsed = outcomes.length := by
  induction outcomes with
  | nil => rfl
  | cons o rest ih =>
    cases o with
    | httpError =>
      simp only [pollLoop] at h ⊢
      simp [ih h]
    | netError =>
      simp only [pollLoop] at h ⊢
      simp [ih h]
    | ok d =>
      by_cases hts : isTerminalStatus d.status = true
      · simp [pollLoop, hts] at h
      · simp only [Bool.not_eq_true] at hts
        simp only [pollLoop, hts] at h ⊢
        simp [ih h]

theorem pollLoop_terminal_last (runId : String) (outcomes : List PollOutcome)
    (h : (pollLoop runId outcomes).terminal = true) :
    ∃ pub, (pollLoop runId outcomes).published.getLast? = some pub ∧
      isTerminalStatus pub.status = true := by
  induction outcomes with
  | nil => simp [pollLoop] at h
  | cons o rest ih =>
    cases o with
    | httpError =>
      simp only [pollLoop] at h ⊢
      exact ih h
    | netError =>
      simp only [pollLoop] at h ⊢
      exact ih h
    | ok d =>
      by_cases hts : isTerminalStatus d.status = true
      · exact ⟨⟨runId, d.status, d.current_node, d.iteration⟩, by simp [pollLoop, hts], hts⟩
      · simp only [Bool.not_eq_true] at hts
        simp only [pollLoop, hts] at h ⊢
        obtain ⟨pub, hl, ht⟩ := ih h
        refine ⟨pub, ?_, ht⟩
        cases hrp : (pollLoop runId rest).published with
        | nil => rw [hrp] at hl; simp at hl
        | cons b t =>
          rw [hrp] at hl
          simpa [List.getLast?_cons_cons] using hl

theorem pollLoop_terminal_count (runId : String) (outcomes : List PollOutcome) :
    ((pollLoop runId outcomes).published.filter
      fun pub => isTerminalStatus pub.status).length =
      (if (pollLoop runId outcomes).terminal then 1 else 0) := by
  induction outcomes with
  | nil => rfl
  | cons o rest ih =>
    cases o with
    | httpError => simpa [pollLoop] using ih
    | netError => simpa [pollLoop] using ih
    | ok d =>
      by_cases hts : isTerminalStatus d.status = true
      · simp [pollLoop, hts]
      · simp only [Bool.not_eq_true] at hts
        simpa [pollLoop, hts, List.filter] using ih

/-- C7 counterexample: the claim "publishing a status update after every
poll" fails on the code — a poll whose HTTP response is non-2xx publishes
nothing (`continue`): with outcomes `[non-2xx, passed]` the loop uses two
attempts but publishes once. -/
theorem pollLoop_skips_publish_on_failed_poll :
    (pollLoop "run_x" [.httpError, .ok ⟨"passed", "scorer", 3⟩]).attemptsUsed = 2 ∧
    ¬ ((pollLoop "run_x" [.httpError, .ok ⟨"passed", "scorer", 3⟩]).published.length =
       (pollLoop "run_x" [.httpError, .ok ⟨"passed", "scorer", 3⟩]).attemptsUsed) := by
  decide

/-- C7 (amended): the Worker Loop polls until the reported status is
terminal or the attempt budget is exhausted, publishing a status update
after every **successful** poll (failed polls publish nothing); a
non-terminal exit forces a published `failed` status with node `timeout`;
the stream read is cancelled on every loop exit; and a
cancellation-triggered read error is treated as a clean stop, never
reported. -/
theorem worker_poll_loop_spec :
    (∀ runId outcomes,
      (pollLoop runId outcomes).published =
        pubsOf runId (outcomes.take (pollLoop runId outcomes).attemptsUsed) ∧
      (pollLoop runId outcomes).attemptsUsed ≤ outcomes.length ∧
      ((pollLoop runId outcomes).terminal = false →
        (pollLoop runId outcomes).attemptsUsed = outcomes.length) ∧
      ((pollLoop runId outcomes).terminal = true →
        ∃ pub, (pollLoop runId outcomes).published.getLast? = some pub ∧
          isTerminalStatus pub.status = true)) ∧
    (∀ runId outcomes, (pollLoop runId outcomes).terminal = false →
      (processAgentRun runId .accepted outcomes).published.getLast? =
        some ⟨runId, "failed", "timeout", 0⟩) ∧
    (∀ runId outcomes, (processAgentRun runId .accepted outcomes).sseCancelled = true) ∧
    bridgeSSEWarns .readError true = false := by
  refine ⟨fun runId outcomes =>
    ⟨pollLoop_published_eq runId outcomes, pollLoop_attempts_le runId outcomes,
     pollLoop_exhausts runId outcomes, pollLoop_terminal_last runId outcomes⟩,
    ?_, ?_, rfl⟩
  · intro runId outcomes h
    simp only [processAgentRun, h, if_neg Bool.false_ne_true]
    rw [← List.cons_append, List.getLast?_concat]
  · intro runId outcomes
    rfl

/-- Closed instance of `worker_poll_loop_spec`: one failed poll exhausts a
budget of one attempt and forces the `failed` / `timeout` publish. -/
theorem worker_poll_loop_spec_witness :
    (pollLoop "run_w" [.httpError]).terminal = false ∧
    (processAgentRun "run_w" .accepted [.httpError]).published.getLast? =
      some ⟨"run_w", "failed", "timeout", 0⟩ :=
  ⟨by decide, worker_poll_loop_spec.2.1 "run_w" [.httpError] (by decide)⟩

/-- C8 counterexample: the claim "the running status is never published
before the start call is accepted" fails on the code — `processAgentRun`
publishes `running` / `repo_scanner` first, before `/agent/start` is even
called, so it is published even when the agent rejects the run. -/
theorem running_published_before_start_accepted :
    (processAgentRun "run_x" .rejected []).published =
      [⟨"run_x", "running", "repo_scanner", 0⟩] ∧
    (processAgentRun "run_x" .rejected []).threw = true := by
  decide

/-- C8 (amended): a Run is created `queued` on submission; the Worker
publishes `running` the moment it begins processing the job — before the
start call is confirmed; when the start call is accepted the run receives
exactly one terminal status publish (a terminal poll result, or the
forced `failed` / `timeout` on budget exhaustion); when the start call is
rejected or errors, the job attempt throws and no terminal status is
published. -/
theorem worker_lifecycle_spec :
    (∀ st p b id dbW enq,
      getActiveByFingerprint st (submissionFingerprint p) = none →
      formatBranchName p.team_name p.leader_name = some b →
      (postRunAgent st p id dbW enq).response =
        .accepted ⟨id, b, "queued", "/run/" ++ id, submissionFingerprint p⟩) ∧
    (∀ runId start outcomes,
      (processAgentRun runId start outcomes).published.head? =
        some ⟨runId, "running", "repo_scanner", 0⟩) ∧
    (∀ runId outcomes,
      ((processAgentRun runId .accepted outcomes).published.filter
        fun pub => isTerminalStatus pub.status).length = 1) ∧
    (∀ runId start outcomes, start ≠ .accepted →
      (processAgentRun runId start outcomes).threw = true ∧
      ((processAgentRun runId start outcomes).published.filter
        fun pub => isTerminalStatus pub.status).length = 0) := by
  refine ⟨?_, ?_, ?_, ?_⟩
  · intro st p b id dbW enq hfp hbr
    simp [postRunAgent, hfp, hbr, validRunAgentResponse]
  · intro runId start outcomes
    cases start <;> rfl
  · intro runId outcomes
    have hc := pollLoop_terminal_count runId outcomes
    have h1 : isTerminalStatus "running" = false := by decide
    have h2 : isTerminalStatus "failed" = true := by decide
    by_cases ht : (pollLoop runId outcomes).terminal = true
    · simp [processAgentRun, ht, List.filter_cons, h1, hc]
    · simp only [Bool.not_eq_true] at ht
      simp [processAgentRun, ht, List.filter_cons, List.filter_append, h1, h2, hc]
  · intro runId start outcomes hstart
    cases start with
    | httpErrorStart => exact ⟨rfl, by simp [processAgentRun, isTerminalStatus]⟩
    | rejected => exact ⟨rfl, by simp [processAgentRun, isTerminalStatus]⟩
    | accepted => exact absurd rfl hstart

/-- Closed instance of `worker_lifecycle_spec`: a fresh submission is
accepted as queued, and a rejected start throws with no terminal
publish. -/
theorem worker_lifecycle_spec_witness :
    (postRunAgent emptyStore ⟨"https://github.com/org/repo", "Team", "Lead"⟩
        "run_l" .ok .ok).response =
      .accepted ⟨"run_l", "TEAM_LEAD_AI_Fix", "queued", "/run/" ++ "run_l",
        submissionFingerprint ⟨"https://github.com/org/repo", "Team", "Lead"⟩⟩ ∧
    (processAgentRun "run_l" .rejected []).threw = true ∧
    ((processAgentRun "run_l" .rejected []).published.filter
      fun pub => isTerminalStatus pub.status).length = 0 :=
  ⟨worker_lifecycle_spec.1 emptyStore ⟨"https://github.com/org/repo", "Team", "Lead"⟩
      "TEAM_LEAD_AI_Fix" "run_l" .ok .ok (by decide) (by decide),
   (worker_lifecycle_spec.2.2.2 "run_l" .rejected [] (by decide)).1,
   (worker_lifecycle_spec.2.2.2 "run_l" .rejected [] (by decide)).2⟩

theorem getActiveByRunId_register_self (st : RunStore) (r : RunEntry)
    (h : getActiveByRunId st r.run_id = none) :
    getActiveByRunId (registerQueuedRun st r) r.run_id = some r := by
  unfold getActiveByRunId registerQueuedRun at *
  rw [find?_append_of_none _ _ _ h]
  simp [List.find?]

/-- C9: for a valid submission (no active fingerprint, formattable branch
name, fresh run id), a failure of the best-effort PostgreSQL write or the
best-effort enqueue changes nothing but the log: the client still gets
202 with the normal response body, the resulting store is identical to
the all-successful case, and the run is registered as `queued` under its
run id. -/
theorem enqueue_failure_still_accepted
    (st : RunStore) (p : RunAgentRequest) (b id : String) (dbW enq : EffectResult)
    (hfp : getActiveByFingerprint st (submissionFingerprint p) = none)
    (hbr : formatBranchName p.team_name p.leader_name = some b)
    (hid : getActiveByRunId st id = none) :
    (postRunAgent st p id dbW enq).response =
      .accepted ⟨id, b, "queued", "/run/" ++ id, submissionFingerprint p⟩ ∧
    (postRunAgent st p id dbW enq).response = (postRunAgent st p id .ok .ok).response ∧
    (postRunAgent st p id dbW enq).store = (postRunAgent st p id .ok .ok).store ∧
    getActiveByRunId (postRunAgent st p id dbW enq).store id =
      some ⟨id, b, "queued", "/run/" ++ id, submissionFingerprint p⟩ := by
  have hresp : (postRunAgent st p id dbW enq).response =
      .accepted ⟨id, b, "queued", "/run/" ++ id, submissionFingerprint p⟩ := by
    simp [postRunAgent, hfp, hbr, validRunAgentResponse]
  have hstore : (postRunAgent st p id dbW enq).store =
      registerQueuedRun st ⟨id, b, "queued", "/run/" ++ id, submissionFingerprint p⟩ := by
    simp [postRunAgent, hfp, hbr, validRunAgentResponse]
  have hstore0 : (postRunAgent st p id .ok .ok).store =
      registerQueuedRun st ⟨id, b, "queued", "/run/" ++ id, submissionFingerprint p⟩ := by
    simp [postRunAgent, hfp, hbr, validRunAgentResponse]
  refine ⟨hresp, ?_, ?_, ?_⟩
  · rw [hresp]
    simp [postRunAgent, hfp, hbr, validRunAgentResponse]
  · rw [hstore, hstore0]
  · rw [hstore]
    exact getActiveByRunId_register_self st _ hid

/-- Closed instance of `enqueue_failure_still_accepted`: both best-effort
calls failing still yields 202 and a queued registration. -/
theorem enqueue_failure_still_accepted_witness :
    (postRunAgent emptyStore ⟨"https://github.com/org/repo", "E2E Warriors", "Test Lead"⟩
        "run_q" .err .err).response =
      .accepted ⟨"run_q", "E2E_WARRIORS_TEST_LEAD_AI_Fix", "queued", "/run/" ++ "run_q",
        submissionFingerprint ⟨"https://github.com/org/repo", "E2E Warriors", "Test Lead"⟩⟩ ∧
    (postRunAgent emptyStore ⟨"https://github.com/org/repo", "E2E Warriors", "Test Lead"⟩
        "run_q" .err .err).response =
      (postRunAgent emptyStore ⟨"https://github.com/org/repo", "E2E Warriors", "Test Lead"⟩
        "run_q" .ok .ok).response ∧
    (postRunAgent emptyStore ⟨"https://github.com/org/repo", "E2E Warriors", "Test Lead"⟩
        "run_q" .err .err).store =
      (postRunAgent emptyStore ⟨"https://github.com/org/repo", "E2E Warriors", "Test Lead"⟩
        "run_q" .ok .ok).store ∧
    getActiveByRunId (postRunAgent emptyStore
        ⟨"https://github.com/org/repo", "E2E Warriors", "Test Lead"⟩
        "run_q" .err .err).store "run_q" =
      some ⟨"run_q", "E2E_WARRIORS_TEST_LEAD_AI_Fix", "queued", "/run/" ++ "run_q",
        submissionFingerprint ⟨"https://github.com/org/repo", "E2E Warriors", "Test Lead"⟩⟩ :=
  enqueue_failure_still_accepted emptyStore
    ⟨"https://github.com/org/repo", "E2E Warriors", "Test Lead"⟩
    "E2E_WARRIORS_TEST_LEAD_AI_Fix" "run_q" .err .err
    (by decide) (by decide) (by decide)

/-- C10: for a syntactically valid run id with no Run Store entry and no
readable results artifact, the status endpoint falls back to the
PostgreSQL `runs` lookup: an existing row yields HTTP 200 with
`current_node = "complete"` and `progress_pct = 100` when its status is
terminal (`passed` / `failed` / `quarantined`) and `current_node =
"running"` with `progress_pct = 50` otherwise; 404 `NOT_FOUND` is
returned exactly when the store, the artifact read and the database
lookup all miss. -/
theorem status_endpoint_db_fallback (maxIter : Nat) (runId : String) (st : RunStore)
    (artifact : ArtifactRead) (db : DbLookup) :
    (getAgentStatus maxIter runId st artifact db = .notFound ↔
      validRunId runId = true ∧ getActiveByRunId st runId = none ∧
      artifact = .readFail ∧ (db = .dbRows none ∨ db = .dbError)) ∧
    (∀ row, validRunId runId = true → getActiveByRunId st runId = none →
      (row.status = "passed" ∨ row.status = "failed" ∨ row.status = "quarantined") →
      getAgentStatus maxIter runId st .readFail (.dbRows (some row)) =
        .ok ⟨row.run_id, row.status, "complete", row.total_iterations.getD 0, maxIter, 100⟩) ∧
    (∀ row, validRunId runId = true → getActiveByRunId st runId = none →
      row.status ≠ "passed" → row.status ≠ "failed" → row.status ≠ "quarantined" →
      getAgentStatus maxIter runId st .readFail (.dbRows (some row)) =
        .ok ⟨row.run_id, row.status, "running", row.total_iterations.getD 0, maxIter, 50⟩) := by
  refine ⟨?_, ?_, ?_⟩
  · unfold getAgentStatus
    by_cases hv : validRunId runId = true
    · simp only [hv, Bool.not_true, if_neg Bool.false_ne_true]
      cases hact : getActiveByRunId st runId with
      | some active => simp
      | none =>
        cases artifact with
        | readOk fs len => simp
        | readFail =>
          cases db with
          | dbRows row => cases row <;> simp
          | dbError => simp
    · simp only [Bool.not_eq_true] at hv
      simp [hv]
  · intro row hv hact hterm
    have hb : (decide (row.status = "passed") || decide (row.status = "failed") ||
        decide (row.status = "quarantined")) = true := by
      rcases hterm with h | h | h <;> simp [h]
    simp [getAgentStatus, hv, hact, hb]
  · intro row hv hact h1 h2 h3
    have hb : (decide (row.status = "passed") || decide (row.status = "failed") ||
        decide (row.status = "quarantined")) = false := by
      simp [h1, h2, h3]
    simp [getAgentStatus, hv, hact, hb]

/-- Closed instance of `status_endpoint_db_fallback`: with the store and
artifact missing, a terminal DB row yields `complete` / 100 and a
non-terminal row yields `running` / 50. -/
theorem status_endpoint_db_fallback_witness :
    getAgentStatus 5 "run_db1" emptyStore .readFail
        (.dbRows (some ⟨"run_db1", "passed", some 3⟩)) =
      .ok ⟨"run_db1", "passed", "complete", 3, 5, 100⟩ ∧
    getAgentStatus 5 "run_db1" emptyStore .readFail
        (.dbRows (some ⟨"run_db1", "queued", none⟩)) =
      .ok ⟨"run_db1", "queued", "running", 0, 5, 50⟩ ∧
    getAgentStatus 5 "run_db1" emptyStore .readFail (.dbRows none) = .notFound :=
  ⟨(status_endpoint_db_fallback 5 "run_db1" emptyStore .readFail
      (.dbRows (some ⟨"run_db1", "passed", some 3⟩))).2.1
      ⟨"run_db1", "passed", some 3⟩ (by decide) (by decide) (Or.inl rfl),
   (status_endpoint_db_fallback 5 "run_db1" emptyStore .readFail
      (.dbRows (some ⟨"run_db1", "queued", none⟩))).2.2
      ⟨"run_db1", "queued", none⟩ (by decide) (by decide)
      (by decide) (by decide) (by decide),
   (status_endpoint_db_fallback 5 "run_db1" emptyStore .readFail
      (.dbRows none)).1.mpr ⟨by decide, by decide, rfl, Or.inl rfl⟩⟩

end Zeus
